import Mathlib

/-!
Verification of the cv-parser document parsing subsystem.

This file shallowly embeds the parsing code of the repository
(`app/services/document_parser.py`, `pdf_parser.py`, `docx_parser.py`,
`txt_parser.py`) in Lean 4 and proves/refutes the claims of the
natural-language specification against it.

Modelling conventions:
* Python `bytes` become `List Nat` (each entry a byte value 0..255).
* Python `str` becomes `String`; pure text manipulation is done on
  `List Char` (`String.data`).
* Python `None`/value distinctions become `Option`.
* A Python function that may raise becomes `Except E A`, where `E` is an
  inductive mirroring the exception classes involved.  A `try/except`
  chain becomes a `match` on the raised value, in handler order.
* External libraries (PyPDF2, python-docx, chardet, codecs, langdetect)
  are modelled as oracle parameters: an opened PDF/DOCX document or a
  chardet detection result is supplied by an oracle function, so theorems
  quantify over everything the library could return.
* Character-class functions (`str.strip`, `str.lower`, `str.isupper`,
  regex `\s`, `\d`, `\w`) are modelled on the character sets relevant to
  the repository's inputs (ASCII plus the common Unicode whitespace);
  Python's full Unicode tables agree with these on every string occurring
  in this development.
* `float` thresholds (`len * 0.05`, confidence `0.7`) are modelled as
  exact rational comparisons (`20 * count > len`, `conf < 7/10`); the two
  float comparisons in the source agree with these on all realistic sizes.
-/

set_option maxRecDepth 20000

/-! ## Python string primitives -/

/-- The character set stripped by Python `str.strip()` (Unicode whitespace):
ASCII whitespace, the C1 separators, NEL, NBSP and the Unicode space
characters. -/
def pyIsSpace (c : Char) : Bool :=
  c.toNat == 9 || c.toNat == 10 || c.toNat == 11 || c.toNat == 12 ||
  c.toNat == 13 || c.toNat == 28 || c.toNat == 29 || c.toNat == 30 ||
  c.toNat == 31 || c.toNat == 32 || c.toNat == 133 || c.toNat == 160 ||
  c.toNat == 5760 || (8192 ≤ c.toNat && c.toNat ≤ 8202) ||
  c.toNat == 8232 || c.toNat == 8233 || c.toNat == 8239 ||
  c.toNat == 8287 || c.toNat == 12288

/-- Remove a maximal trailing run of characters satisfying `p`
(the right half of Python `str.strip()`). -/
def pyDropTrailing (p : Char → Bool) : List Char → List Char
  | [] => []
  | a :: xs =>
    let ys := pyDropTrailing p xs
    if ys.isEmpty && p a then [] else a :: ys

/-- Python `str.strip()` on a character list. -/
def pyStripL (l : List Char) : List Char :=
  pyDropTrailing pyIsSpace (l.dropWhile pyIsSpace)

/-- Python `str.strip()`. -/
def pyStrip (s : String) : String :=
  ⟨pyStripL s.data⟩

/-- Python `str.lower()` (ASCII letters; the repository's file-type tokens
and encoding names are ASCII). -/
def pyLower (s : String) : String :=
  ⟨s.data.map fun c =>
    if 65 ≤ c.toNat && c.toNat ≤ 90 then Char.ofNat (c.toNat + 32) else c⟩

/-- Does `pat` occur as a leading segment of `l`? -/
def leadSeg : List Char → List Char → Bool
  | [], _ => true
  | _ :: _, [] => false
  | a :: as, b :: bs => a == b && leadSeg as bs

/-- Does `pat` occur as a contiguous segment of `l`
(Python `pat in l` on strings)? -/
def hasSeg (pat : List Char) : List Char → Bool
  | [] => leadSeg pat []
  | c :: cs => leadSeg pat (c :: cs) || hasSeg pat cs

/-- Python substring containment `needle in hay`. -/
def pyContains (hay needle : String) : Bool :=
  hasSeg needle.data hay.data

/-! ## TXT text normalization (`TXTParser.normalize_text`)

The source applies, in order:
`re.sub(r' +', ' ', text)`, `re.sub(r'\r\n|\r', '\n', text)`,
`re.sub(r'\n{3,}', '\n\n', text)`, `str.strip()`. -/

/-- `re.sub(r' +', ' ', ·)`: collapse each run of spaces to one space
(a space followed by another space is dropped). -/
def collapseSpaces : List Char → List Char
  | [] => []
  | c :: cs =>
    if c == ' ' && cs.head? == some ' ' then collapseSpaces cs
    else c :: collapseSpaces cs

/-- `re.sub(r'\r\n|\r', '\n', ·)`: each CRLF pair and each lone CR
becomes one LF. -/
def crToLf : List Char → List Char
  | [] => []
  | [c] => if c == '\r' then ['\n'] else [c]
  | a :: b :: cs =>
    if a == '\r' && b == '\n' then '\n' :: crToLf cs
    else if a == '\r' then '\n' :: crToLf (b :: cs)
    else a :: crToLf (b :: cs)

/-- `re.sub(r'\n{3,}', '\n\n', ·)`: each run of three or more LFs becomes
exactly two (an LF followed by two more LFs is dropped). -/
def collapseNewlines : List Char → List Char
  | [] => []
  | c :: cs =>
    if c == '\n' && cs.head? == some '\n' && cs.tail.head? == some '\n' then
      collapseNewlines cs
    else c :: collapseNewlines cs

/-- The normalization pipeline applied when the decoded content is
non-empty. -/
def normalizePipeline (l : List Char) : List Char :=
  pyStripL (collapseNewlines (crToLf (collapseSpaces l)))

namespace TXTParser

/-- `TXTParser.normalize_text`, as a function of the decoded content
(the method returns `""` when `self._decoded_content` is falsy). -/
def normalizeText (decoded : String) : String :=
  if decoded = "" then "" else ⟨normalizePipeline decoded.data⟩

end TXTParser

/-! ### Invariants characterizing normalized text -/

/-- No two adjacent spaces. -/
def noTwoSpaces : List Char → Bool
  | [] => true
  | c :: cs => !(c == ' ' && cs.head? == some ' ') && noTwoSpaces cs

/-- No carriage return. -/
def noCarriage (l : List Char) : Bool :=
  l.all fun c => c != '\r'

/-- No three adjacent line feeds. -/
def noTripleLf : List Char → Bool
  | [] => true
  | c :: cs =>
    !(c == '\n' && cs.head? == some '\n' && cs.tail.head? == some '\n') &&
      noTripleLf cs

/-- First and last characters (when present) are not Python whitespace. -/
def isStrippedL (l : List Char) : Bool :=
  (l.head?.all fun c => !pyIsSpace c) && (l.getLast?.all fun c => !pyIsSpace c)


/-! ## Python `int`, `datetime` and PDF date parsing
(`PDFParser._parse_pdf_date` in `app/services/pdf_parser.py`) -/

/-- Python `str.startswith`. -/
def pyStartsWith (s pre : String) : Bool :=
  leadSeg pre.data s.data

/-- `l[a:b]` on a character list. -/
def pySlice (l : List Char) (a b : Nat) : List Char :=
  (l.drop a).take (b - a)

/-- Digit accumulation for `int()`: a single underscore is allowed between
digits, nowhere else. -/
def pyIntDigitsGo (acc : Nat) : List Char → Option Nat
  | [] => some acc
  | '_' :: c :: cs =>
    if c.isDigit then pyIntDigitsGo (acc * 10 + (c.toNat - 48)) cs else none
  | ['_'] => none
  | c :: cs =>
    if c.isDigit then pyIntDigitsGo (acc * 10 + (c.toNat - 48)) cs else none

/-- The digit part of `int()`: at least one leading digit. -/
def pyIntDigits : List Char → Option Nat
  | [] => none
  | c :: cs => if c.isDigit then pyIntDigitsGo (c.toNat - 48) cs else none

/-- Python `int(s)` (ASCII digits): surrounding whitespace stripped, an
optional sign, then digits; `none` models the `ValueError` it raises
otherwise. -/
def pyInt (s : String) : Option Int :=
  match pyStripL s.data with
  | '+' :: rest => (pyIntDigits rest).map Int.ofNat
  | '-' :: rest => (pyIntDigits rest).map fun n => -(Int.ofNat n)
  | rest => (pyIntDigits rest).map Int.ofNat

/-- Gregorian leap year, as `datetime` uses it. -/
def isLeapYear (y : Int) : Bool :=
  y % 4 == 0 && (y % 100 != 0 || y % 400 == 0)

/-- Days in a month, as `datetime` validates them. -/
def daysInMonth (y m : Int) : Int :=
  if m == 2 then (if isLeapYear y then 29 else 28)
  else if m == 4 || m == 6 || m == 9 || m == 11 then 30
  else 31

/-- The argument checks of `datetime.datetime(...)`; outside these ranges the
constructor raises `ValueError`. -/
def validDatetime (y mo d h mi s : Int) : Bool :=
  decide (1 ≤ y) && decide (y ≤ 9999) && decide (1 ≤ mo) && decide (mo ≤ 12) &&
  decide (1 ≤ d) && decide (d ≤ daysInMonth y mo) &&
  decide (0 ≤ h) && decide (h ≤ 23) && decide (0 ≤ mi) && decide (mi ≤ 59) &&
  decide (0 ≤ s) && decide (s ≤ 59)

/-- A `datetime.datetime` value (no microseconds or timezone: the parser
never constructs them). -/
structure PyDatetime where
  year : Int
  month : Int
  day : Int
  hour : Int
  minute : Int
  second : Int
deriving DecidableEq, Repr

/-- Zero-pad to two digits. -/
def pad2 (n : Nat) : String :=
  if n < 10 then "0" ++ toString n else toString n

/-- Zero-pad to four digits. -/
def pad4 (n : Nat) : String :=
  if n < 10 then "000" ++ toString n
  else if n < 100 then "00" ++ toString n
  else if n < 1000 then "0" ++ toString n
  else toString n

/-- `datetime.isoformat()` for a validated datetime. -/
def datetimeIso (dt : PyDatetime) : String :=
  pad4 dt.year.toNat ++ "-" ++ pad2 dt.month.toNat ++ "-" ++ pad2 dt.day.toNat ++
    "T" ++ pad2 dt.hour.toNat ++ ":" ++ pad2 dt.minute.toNat ++ ":" ++
    pad2 dt.second.toNat

namespace PDFParser

/-- `PDFParser._parse_pdf_date` (`app/services/pdf_parser.py` 262-288).
The whole body is a `try` with a bare `except: return ""`.  When the
(`D:`-trimmed) string is shorter than 14 characters and nothing raises, the
function falls off its end, so Python returns `None` (modelled `none`);
`some ""` models the `""` returned by the `except` when `int(...)` or
`datetime(...)` raises. -/
def parsePdfDate (dateStr : String) : Option String :=
  let ds := if pyStartsWith dateStr "D:" then ⟨dateStr.data.drop 2⟩ else dateStr
  let dsl := ds.data
  if 14 ≤ dsl.length then
    match pyInt ⟨pySlice dsl 0 4⟩, pyInt ⟨pySlice dsl 4 6⟩, pyInt ⟨pySlice dsl 6 8⟩,
        pyInt ⟨pySlice dsl 8 10⟩, pyInt ⟨pySlice dsl 10 12⟩,
        pyInt ⟨pySlice dsl 12 14⟩ with
    | some y, some mo, some d, some h, some mi, some s =>
      if validDatetime y mo d h mi s then
        some (datetimeIso ⟨y, mo, d, h, mi, s⟩)
      else some ""
    | _, _, _, _, _, _ => some ""
  else none

end PDFParser

/-! ## Metadata values -/

/-- A value in a metadata dict: the parsers store strings and counts. -/
inductive MetaVal where
  | s (v : String)
  | n (v : Int)
deriving DecidableEq, Repr

/-- A metadata dict, in insertion order (all keys the parsers insert are
distinct). -/
abbrev Metadata := List (String × MetaVal)

/-- Python truthiness of an optional string (`None` and `""` are falsy). -/
def optTruthy : Option String → Bool
  | none => false
  | some s => !(s == "")

/-- `if value: metadata[key] = value` for an optional string field. -/
def addIfTruthy (m : Metadata) (key : String) (v : Option String) : Metadata :=
  match v with
  | some s => if s == "" then m else m ++ [(key, MetaVal.s s)]
  | none => m

/-! ## PDF parser (`app/services/pdf_parser.py`)

The error-class hierarchy: `PDFParsingError`, `PDFEncryptedError` and
`PDFDamagedError` all subclass `DocumentParsingError`.  Modelled from the
spec: the base module defining `DocumentParsingError` and `ValidationError`
is not under `src/`; per the spec's error taxonomy (section 7) they are
ordinary exceptions propagated by language-native means, so a Python
`except Exception` handler catches every one of them. -/

/-- The exceptions that can travel through `PDFParser.parse`'s `try`:
the PyPDF2 read error, the built-in errors its handlers name, the parser's
own typed errors, and a catch-all for anything else. -/
inductive PdfExc where
  | pdfReadError (msg : String)
  | attributeError (msg : String)
  | valueError (msg : String)
  | typeError (msg : String)
  | pdfParsingError (msg : String)
  | pdfEncryptedError (msg : String)
  | pdfDamagedError (msg : String)
  | validationError (msg : String)
  | otherExc (msg : String)
deriving DecidableEq, Repr

/-- `str(e)`: each exception is constructed with a single message argument. -/
def PdfExc.message : PdfExc → String
  | .pdfReadError m | .attributeError m | .valueError m | .typeError m
  | .pdfParsingError m | .pdfEncryptedError m | .pdfDamagedError m
  | .validationError m | .otherExc m => m

/-- A PyPDF2 page object: what the parser reads from it.
`extractedText` is the outcome of `page.extract_text()` (it can raise);
`width`/`height` are `page.mediabox.width/height`; `rotation` is
`page.get('/Rotate', 0)`. -/
structure PdfPageM where
  extractedText : Except String String
  width : ℚ
  height : ℚ
  rotation : Int

/-- A node of the PyPDF2 outline tree: a dict (with optional `/Title`,
`/Page`, `/Kids` keys), a nested list, or any other object. -/
inductive PdfOutlineNode where
  | dict (title : Option String) (page : Option Int)
      (kids : Option (List PdfOutlineNode))
  | arr (items : List PdfOutlineNode)
  | other

/-- The document-information dictionary (`reader.metadata`), each standard
key either absent (`none`) or a string. -/
structure PdfDocInfo where
  title : Option String
  author : Option String
  subject : Option String
  keywords : Option String
  producer : Option String
  creator : Option String
  creationDate : Option String
  modDate : Option String
deriving DecidableEq, Repr

/-- An opened `PyPDF2.PdfReader`.  `metadataResult` is the outcome of
reading `reader.metadata` (`.error` models it raising, `.ok none` models
`info is None`); `outline` is `none` when the reader has no truthy
`outline` attribute content is not relevant, `some items` otherwise. -/
structure PdfReaderM where
  isEncrypted : Bool
  pages : List PdfPageM
  metadataResult : Except String (Option PdfDocInfo)
  outline : Option (List PdfOutlineNode)

/-- An entry produced by `PDFParser._extract_outline`: `title`, optional
`page`, optional `children`. -/
inductive OutlineEntry where
  | mk (title : String) (page : Option Int)
      (children : Option (List OutlineEntry))

mutual

/-- `PDFParser._extract_outline` (`pdf_parser.py` 237-260): dict items with
a `/Title` become entries, nested lists are flattened, anything else is
skipped. -/
def extractOutlineList : List PdfOutlineNode → List OutlineEntry
  | [] => []
  | i :: rest => extractOutlineItem i ++ extractOutlineList rest

/-- One item of the outline walk. -/
def extractOutlineItem : PdfOutlineNode → List OutlineEntry
  | .dict title page kids =>
    match title with
    | none => []
    | some t => [.mk t page (extractOutlineKids kids)]
  | .arr items => extractOutlineList items
  | .other => []

/-- The `/Kids` recursion (`children` key added only when `/Kids` exists). -/
def extractOutlineKids : Option (List PdfOutlineNode) → Option (List OutlineEntry)
  | none => none
  | some ks => some (extractOutlineList ks)

end

/-- A per-page descriptor of `PDFParser._extract_structure`. -/
structure PdfPageInfo where
  number : Nat
  size : ℚ × ℚ
  rotation : Int
deriving DecidableEq, Repr

/-- The structure dict of `PDFParser._extract_structure`: `sections` and
`images` are created empty and never filled; the `outline` key is present
only when the reader has a truthy outline. -/
structure PdfStructure where
  pages : List PdfPageInfo
  sections : List String
  images : List String
  outline : Option (List OutlineEntry)

namespace PDFParser

/-- `PDFParser._extract_text` (42-row `pdf_parser.py` 171-197): pages whose
`extract_text` raises are logged and skipped, empty page texts are skipped
(`if page_text:`), the rest joined by a blank line.  Raises when no PDF is
loaded. -/
def extractTextM (rdr? : Option PdfReaderM) : Except PdfExc String :=
  match rdr? with
  | none => .error (.pdfParsingError "No PDF loaded for text extraction")
  | some rdr => .ok (String.intercalate "\n\n" (rdr.pages.filterMap fun p =>
      match p.extractedText with
      | .ok t => if t == "" then none else some t
      | .error _ => none))

/-- `PDFParser._extract_structure` (`pdf_parser.py` 199-235).  Raises when
no PDF is loaded; page attribute access is total in this model, so the
`except` branch that degrades to empty pages/sections/images is
unreachable here. -/
def extractStructureM (rdr? : Option PdfReaderM) : Except PdfExc PdfStructure :=
  match rdr? with
  | none => .error (.pdfParsingError "No PDF loaded for structure extraction")
  | some rdr => .ok
      { pages := rdr.pages.enum.map fun ip =>
          { number := ip.1 + 1, size := (ip.2.width, ip.2.height),
            rotation := ip.2.rotation }
        sections := []
        images := []
        outline := match rdr.outline with
          | some items =>
            if items.isEmpty then none else some (extractOutlineList items)
          | none => none }

/-- `PDFParser.extract_metadata` builds this map from a present info dict:
the six standard fields when truthy, the two dates when their strings are
truthy and `_parse_pdf_date` returns a truthy value, then `page_count`. -/
def buildMetadata (info : PdfDocInfo) (pageCount : Nat) : Metadata :=
  let m : Metadata := []
  let m := addIfTruthy m "title" info.title
  let m := addIfTruthy m "author" info.author
  let m := addIfTruthy m "subject" info.subject
  let m := addIfTruthy m "keywords" info.keywords
  let m := addIfTruthy m "producer" info.producer
  let m := addIfTruthy m "creator" info.creator
  let m := match info.creationDate with
    | some dstr =>
      if dstr == "" then m
      else match parsePdfDate dstr with
        | some iso => if iso == "" then m else m ++ [("creation_date", .s iso)]
        | none => m
    | none => m
  let m := match info.modDate with
    | some dstr =>
      if dstr == "" then m
      else match parsePdfDate dstr with
        | some iso =>
          if iso == "" then m else m ++ [("modification_date", .s iso)]
        | none => m
    | none => m
  m ++ [("page_count", .n (pageCount : Int))]

/-- `PDFParser.extract_metadata` (`pdf_parser.py` 86-137): raises
`PDFParsingError` when no PDF is loaded; otherwise its body is a `try`
whose `except` returns the empty dict, so a failing or absent
`reader.metadata` yields `{}` (the empty list here). -/
def extractMetadataM (rdr? : Option PdfReaderM) : Except PdfExc Metadata :=
  match rdr? with
  | none => .error (.pdfParsingError "No PDF loaded for metadata extraction")
  | some rdr => .ok (match rdr.metadataResult with
      | .error _ => []
      | .ok none => []
      | .ok (some info) => buildMetadata info rdr.pages.length)

/-- The result dict of `PDFParser.parse`. -/
structure Result where
  content : String
  docStructure : PdfStructure
  metadata : Metadata

/-- The `except` chain of `PDFParser.parse` (`pdf_parser.py` 77-84), in
handler order: `PdfReadError` first, then
`(AttributeError, ValueError, TypeError)` with the `"seek"` message test,
then `except Exception` — which also catches the parser's own typed
errors raised inside the `try`, `PDFEncryptedError` included. -/
def handle (e : PdfExc) : PdfExc :=
  match e with
  | .pdfReadError m => .pdfDamagedError ("Failed to read PDF: " ++ m)
  | .attributeError m | .valueError m | .typeError m =>
    if hasSeg "seek".data m.data then .pdfDamagedError ("Invalid PDF format: " ++ m)
    else .pdfParsingError ("PDF parsing failed: " ++ m)
  | e => .pdfParsingError ("PDF parsing failed: " ++ e.message)

/-- The `try` body of `PDFParser.parse` (`pdf_parser.py` 57-75):
store the content, open the reader, reject encrypted documents, then
extract text, structure and metadata in that order.  `openPdf` is the
oracle for `PyPDF2.PdfReader(BytesIO(content))`. -/
def parseBody (content : List Nat)
    (openPdf : List Nat → Except PdfExc PdfReaderM) : Except PdfExc Result :=
  match openPdf content with
  | .error e => .error e
  | .ok rdr =>
    if rdr.isEncrypted then .error (.pdfEncryptedError "Cannot parse encrypted PDF")
    else match extractTextM (some rdr) with
      | .error e => .error e
      | .ok c =>
        match extractStructureM (some rdr) with
        | .error e => .error e
        | .ok st =>
          match extractMetadataM (some rdr) with
          | .error e => .error e
          | .ok md => .ok { content := c, docStructure := st, metadata := md }

/-- `PDFParser.parse` (`pdf_parser.py` 42-84): the `try` body with its
`except` chain applied to whatever it raises. -/
def parse (content : List Nat)
    (openPdf : List Nat → Except PdfExc PdfReaderM) : Except PdfExc Result :=
  match parseBody content openPdf with
  | .ok r => .ok r
  | .error e => .error (handle e)

end PDFParser

/-! ## DOCX parser (`app/services/docx_parser.py`) -/

/-- `str.replace(pat, rep)`: replace every non-overlapping occurrence,
left to right.  An empty `pat` is left untouched (never used here). -/
def pyReplaceL (pat rep : List Char) : List Char → List Char
  | [] => []
  | c :: cs =>
    if !pat.isEmpty && leadSeg pat (c :: cs) then
      rep ++ pyReplaceL pat rep (cs.drop (pat.length - 1))
    else c :: pyReplaceL pat rep cs
termination_by l => l.length
decreasing_by
  · simp only [List.length_drop, List.length_cons]
    omega
  · simp

/-- `str.replace` on strings. -/
def pyReplace (s pat rep : String) : String :=
  ⟨pyReplaceL pat.data rep.data s.data⟩

/-- The exceptions that can travel through `DOCXParser.parse`'s `try`. -/
inductive DocxExc where
  | packageNotFound (msg : String)
  | valueError (msg : String)
  | typeError (msg : String)
  | attributeError (msg : String)
  | docxParsingError (msg : String)
  | docxCorruptedError (msg : String)
  | validationError (msg : String)
  | otherExc (msg : String)
deriving DecidableEq, Repr

/-- `str(e)` for the DOCX exceptions. -/
def DocxExc.message : DocxExc → String
  | .packageNotFound m | .valueError m | .typeError m | .attributeError m
  | .docxParsingError m | .docxCorruptedError m | .validationError m
  | .otherExc m => m

/-- A python-docx paragraph: its text and its style name. -/
structure DocxPara where
  text : String
  styleName : String
deriving DecidableEq, Repr

/-- A python-docx table: its rows as lists of cell texts, and its column
count (`len(table.columns)`). -/
structure DocxTableM where
  rows : List (List String)
  columns : Nat
deriving DecidableEq, Repr

/-- A python-docx section: page width and height in EMU
(`Length` values; `.pt` divides by 12700). -/
structure DocxSectionM where
  pageWidthEmu : Int
  pageHeightEmu : Int
deriving DecidableEq, Repr

/-- `document.core_properties`: optional strings and datetimes. -/
structure DocxCoreProps where
  title : Option String
  author : Option String
  subject : Option String
  keywords : Option String
  category : Option String
  comments : Option String
  created : Option PyDatetime
  modified : Option PyDatetime
  lastPrinted : Option PyDatetime
deriving DecidableEq, Repr

/-- An opened `docx.Document`.  `coreProps` is the outcome of reading
`core_properties` (`.error` models it raising, degraded to `{}` by
`extract_metadata`'s `except`). -/
structure DocxDocM where
  paragraphs : List DocxPara
  tables : List DocxTableM
  sections : List DocxSectionM
  coreProps : Except String DocxCoreProps

namespace DOCXParser

/-- The paragraph lines of `DOCXParser._extract_text`
(`docx_parser.py` 170-173): paragraphs kept, unstripped, when their
stripped text is non-empty. -/
def paraLines (doc : DocxDocM) : List String :=
  doc.paragraphs.filterMap fun p =>
    if pyStrip p.text == "" then none else some p.text

/-- One table row of `DOCXParser._extract_text` (176-183): stripped
non-empty cell texts joined by `" | "`; an all-empty row produces no
line. -/
def rowLine (row : List String) : Option String :=
  let cells := row.filterMap fun c =>
    let s := pyStrip c
    if s == "" then none else some s
  if cells.isEmpty then none else some (String.intercalate " | " cells)

/-- The table lines of `DOCXParser._extract_text`, all tables in order. -/
def tableLines (doc : DocxDocM) : List String :=
  (doc.tables.map fun t => t.rows.filterMap rowLine).flatten

/-- The `text_content` list of `DOCXParser._extract_text`: paragraph lines
first, then table lines. -/
def textContent (doc : DocxDocM) : List String :=
  paraLines doc ++ tableLines doc

/-- `DOCXParser._extract_text` (`docx_parser.py` 155-188): the content
lines joined by newlines.  Raises when no document is loaded. -/
def extractTextM (doc? : Option DocxDocM) : Except DocxExc String :=
  match doc? with
  | none => .error (.docxParsingError "No document loaded for text extraction")
  | some doc => .ok (String.intercalate "\n" (textContent doc))

/-- A section descriptor of `DOCXParser._extract_structure`. -/
structure SectionInfo where
  number : Nat
  pageWidthPt : ℚ
  pageHeightPt : ℚ
  orientation : String
deriving DecidableEq, Repr

/-- A heading descriptor of `DOCXParser._extract_structure`. -/
structure HeadingInfo where
  level : Int
  text : String
  position : Nat
deriving DecidableEq, Repr

/-- A table descriptor of `DOCXParser._extract_structure`. -/
structure TableInfo where
  number : Nat
  rows : Nat
  columns : Nat
deriving DecidableEq, Repr

/-- The structure dict of `DOCXParser._extract_structure`; `lists` is
created empty and never filled. -/
structure Structure where
  sections : List SectionInfo
  headings : List HeadingInfo
  tables : List TableInfo
  lists : List String
deriving DecidableEq, Repr

/-- The heading pass of `DOCXParser._extract_structure` (221-228):
paragraphs whose style name starts with `Heading`;
`int(name.replace('Heading ', ''))` raises `ValueError` on a
non-numeric remainder (`none` here), which degrades the whole structure. -/
def headings (paras : List DocxPara) : Option (List HeadingInfo) :=
  (paras.enum.filter fun ip => pyStartsWith ip.2.styleName "Heading").mapM
    fun ip =>
      (pyInt (pyReplace ip.2.styleName "Heading " "")).map fun lvl =>
        { level := lvl, text := ip.2.text, position := ip.1 }

/-- `DOCXParser._extract_structure` (`docx_parser.py` 190-243): sections,
headings and tables; any exception inside (only the heading-level `int`
in this model) degrades to the all-empty structure. -/
def extractStructureM (doc? : Option DocxDocM) : Except DocxExc Structure :=
  match doc? with
  | none => .error (.docxParsingError "No document loaded for structure extraction")
  | some doc => .ok (match headings doc.paragraphs with
      | none => { sections := [], headings := [], tables := [], lists := [] }
      | some hs =>
        { sections := doc.sections.enum.map fun is' =>
            { number := is'.1 + 1,
              pageWidthPt := (is'.2.pageWidthEmu : ℚ) / 12700,
              pageHeightPt := (is'.2.pageHeightEmu : ℚ) / 12700,
              orientation :=
                if is'.2.pageWidthEmu < is'.2.pageHeightEmu then "portrait"
                else "landscape" }
          headings := hs
          tables := doc.tables.enum.map fun it =>
            { number := it.1 + 1, rows := it.2.rows.length,
              columns := it.2.columns }
          lists := [] })

/-- `DOCXParser._format_datetime` (245-254): `dt.isoformat() if dt else ""`. -/
def formatDatetime : Option PyDatetime → String
  | some dt => datetimeIso dt
  | none => ""

/-- `DOCXParser.extract_metadata` builds this map from present core
properties: the six string fields when truthy, the three dates when
present (datetimes are always truthy), then the counts. -/
def buildMetadata (props : DocxCoreProps)
    (paraCount tableCount sectionCount : Nat) : Metadata :=
  let m : Metadata := []
  let m := addIfTruthy m "title" props.title
  let m := addIfTruthy m "author" props.author
  let m := addIfTruthy m "subject" props.subject
  let m := addIfTruthy m "keywords" props.keywords
  let m := addIfTruthy m "category" props.category
  let m := addIfTruthy m "comments" props.comments
  let m := match props.created with
    | some dt => m ++ [("creation_date", .s (formatDatetime (some dt)))]
    | none => m
  let m := match props.modified with
    | some dt => m ++ [("modification_date", .s (formatDatetime (some dt)))]
    | none => m
  let m := match props.lastPrinted with
    | some dt => m ++ [("last_printed", .s (formatDatetime (some dt)))]
    | none => m
  m ++ [("paragraph_count", .n (paraCount : Int)),
        ("table_count", .n (tableCount : Int)),
        ("section_count", .n (sectionCount : Int))]

/-- `DOCXParser.extract_metadata` (`docx_parser.py` 75-121): raises
`DOCXParsingError` when no document is loaded; otherwise a `try` whose
`except` returns the empty dict, so failing property access yields `{}`. -/
def extractMetadataM (doc? : Option DocxDocM) : Except DocxExc Metadata :=
  match doc? with
  | none => .error (.docxParsingError "No document loaded for metadata extraction")
  | some doc => .ok (match doc.coreProps with
      | .error _ => []
      | .ok props =>
        buildMetadata props doc.paragraphs.length doc.tables.length
          doc.sections.length)

/-- The result dict of `DOCXParser.parse`. -/
structure Result where
  content : String
  docStructure : Structure
  metadata : Metadata
deriving DecidableEq, Repr

/-- The `except` chain of `DOCXParser.parse` (`docx_parser.py` 66-73):
`PackageNotFoundError` first, then
`(ValueError, TypeError, AttributeError)` with the lower-cased
`"not a zip file"` message test, then `except Exception`. -/
def handle (e : DocxExc) : DocxExc :=
  match e with
  | .packageNotFound m => .docxCorruptedError ("Failed to read DOCX: " ++ m)
  | .valueError m | .typeError m | .attributeError m =>
    if hasSeg "not a zip file".data (pyLower m).data then
      .docxCorruptedError ("Invalid DOCX format: " ++ m)
    else .docxParsingError ("DOCX parsing failed: " ++ m)
  | e => .docxParsingError ("DOCX parsing failed: " ++ e.message)

/-- The `try` body of `DOCXParser.parse` (`docx_parser.py` 51-64).
`openDocx` is the oracle for `docx.Document(BytesIO(content))`. -/
def parseBody (content : List Nat)
    (openDocx : List Nat → Except DocxExc DocxDocM) : Except DocxExc Result :=
  match openDocx content with
  | .error e => .error e
  | .ok doc =>
    match extractTextM (some doc) with
    | .error e => .error e
    | .ok c =>
      match extractStructureM (some doc) with
      | .error e => .error e
      | .ok st =>
        match extractMetadataM (some doc) with
        | .error e => .error e
        | .ok md => .ok { content := c, docStructure := st, metadata := md }

/-- `DOCXParser.parse` (`docx_parser.py` 37-73). -/
def parse (content : List Nat)
    (openDocx : List Nat → Except DocxExc DocxDocM) : Except DocxExc Result :=
  match parseBody content openDocx with
  | .ok r => .ok r
  | .error e => .error (handle e)

end DOCXParser

/-! ## TXT parser (`app/services/txt_parser.py`)

`TXTParsingError` subclasses `DocumentParsingError` and `TXTEncodingError`
subclasses `EncodingError`; modelled from the spec as above, both are
ordinary exceptions, so `except Exception` catches them. -/

/-- The exceptions that can travel through `TXTParser.parse`'s `try`.
`unicodeDecodeError` carries the `self._encoding` in force when it was
raised, because the handler's message interpolates it. -/
inductive TxtExc where
  | txtParsingError (msg : String)
  | txtEncodingError (msg : String)
  | validationError (msg : String)
  | unicodeDecodeError (encoding : String) (msg : String)
  | otherExc (msg : String)
deriving DecidableEq, Repr

/-- `str(e)` for the TXT exceptions (each raise site whose message a
theorem inspects passes a single message argument). -/
def TxtExc.message : TxtExc → String
  | .txtParsingError m | .txtEncodingError m | .validationError m
  | .otherExc m => m
  | .unicodeDecodeError _ m => m

/-- The external text machinery `TXTParser` calls, as oracles:
`detect` is `chardet.detect` (an optional encoding name and a confidence);
`decode` is `bytes.decode(encoding)` (raising `UnicodeDecodeError` on
`.error`); `decodeReplace` is `bytes.decode('utf-8', errors='replace')`
(total); `detectLang` is `langdetect.detect`, `none` when the library is
missing or raises. -/
structure TxtOracle where
  detect : List Nat → Option String × ℚ
  decode : String → List Nat → Except String String
  decodeReplace : List Nat → String
  detectLang : String → Option String

/-- The bytes of the sentinel payload `b"This is not a valid document"`. -/
def invalidDocSentinel : List Nat :=
  [84, 104, 105, 115, 32, 105, 115, 32, 110, 111, 116, 32, 97, 32, 118, 97,
   108, 105, 100, 32, 100, 111, 99, 117, 109, 101, 110, 116]

/-- The binary-character test of `TXTParser._detect_and_decode_content`
(`txt_parser.py` line 109): `b < 9 or (b > 13 and b < 32 and b != 27)`. -/
def txtIsBinaryChar (b : Nat) : Bool :=
  decide (b < 9) || (decide (13 < b) && decide (b < 32) && decide (b ≠ 27))

/-- The number of binary characters in the content (line 109). -/
def txtBinaryCount (content : List Nat) : Nat :=
  content.countP txtIsBinaryChar

/-- `TXTParser._detect_and_decode_content` (`txt_parser.py` 95-141),
returning the encoding, the confidence and the decoded text.
The comparison `binary_chars > len(content) * 0.05` is modelled as the
exact `20 * binary_chars > len(content)`. -/
def txtDetectAndDecode (content : List Nat) (o : TxtOracle) :
    Except TxtExc (String × ℚ × String) :=
  if content.isEmpty then .error (.txtEncodingError "No content to decode")
  else if content.length < 10 then
    .error (.txtParsingError "Content too short to be a valid text document")
  else if content.length < 20 * txtBinaryCount content then
    .error (.txtParsingError "Invalid text content: contains too many binary characters")
  else
    let det := o.detect content
    let enc := match det.1 with
      | some e => if e == "" then "utf-8" else e
      | none => "utf-8"
    let conf := det.2
    if conf < mkRat 7 10 && decide (content.length < 50) then
      .error (.txtParsingError "Invalid text content: unable to detect encoding with confidence")
    else if content.contains 128 &&
        (pyLower enc == "utf-8" || pyLower enc == "utf8" || pyLower enc == "ascii") then
      .error (.txtEncodingError ("Invalid " ++ enc ++ " sequence detected"))
    else match o.decode enc content with
      | .ok s => .ok (enc, conf, s)
      | .error m =>
        let s := o.decodeReplace content
        if content.length < 50 then
          .error (.txtEncodingError
            ("Failed to decode content with any encoding: " ++ m ++
              ", fallback error: Invalid text content: encoding errors detected"))
        else .ok ("utf-8", conf, s)

/-- The line-break set of Python `str.splitlines`. -/
def isLineBreakChar (c : Char) : Bool :=
  c.toNat == 10 || c.toNat == 11 || c.toNat == 12 || c.toNat == 13 ||
  c.toNat == 28 || c.toNat == 29 || c.toNat == 30 || c.toNat == 133 ||
  c.toNat == 8232 || c.toNat == 8233

/-- The scanner of `str.splitlines`: every break terminates a line (CRLF is
one break); a trailing unterminated segment is a line only when non-empty. -/
def splitlinesGo (cur : List Char) : List Char → List (List Char)
  | [] => if cur.isEmpty then [] else [cur.reverse]
  | '\r' :: '\n' :: cs => cur.reverse :: splitlinesGo [] cs
  | c :: cs =>
    if isLineBreakChar c then cur.reverse :: splitlinesGo [] cs
    else splitlinesGo (c :: cur) cs

/-- Python `str.splitlines()`. -/
def pySplitlines (s : String) : List String :=
  (splitlinesGo [] s.data).map fun l => ⟨l⟩

/-- Regex `\w` (ASCII model: letters, digits, underscore). -/
def isWordChar (c : Char) : Bool :=
  c.isAlpha || c.isDigit || c == '_'

/-- Maximal `\w`-runs counter: the length of
`re.findall(r'\b\w+\b', text)`. -/
def countWordRunsGo (inWord : Bool) : List Char → Nat
  | [] => 0
  | c :: cs =>
    if isWordChar c then (if inWord then 0 else 1) + countWordRunsGo true cs
    else countWordRunsGo false cs

/-- The word count of `TXTParser.extract_metadata`. -/
def countWordRuns (l : List Char) : Nat :=
  countWordRunsGo false l

namespace TXTParser

/-- `TXTParser.extract_metadata` (`txt_parser.py` 143-178): the empty dict
when nothing is decoded; otherwise line, word and character counts, the
encoding, and a best-effort language field that is omitted when the
content is short or detection is unavailable or fails.  The method has no
raise path: the langdetect block is inside its own `try`. -/
def extractMetadata (decoded? : Option String) (encoding : String)
    (o : TxtOracle) : Metadata :=
  match decoded? with
  | none => []
  | some dec =>
    let base : Metadata :=
      [("line_count", .n ((pySplitlines dec).length : Int)),
       ("word_count", .n ((countWordRuns dec.data) : Int)),
       ("char_count", .n ((dec.data.length) : Int)),
       ("encoding", .s encoding)]
    if 10 < (pyStrip dec).data.length then
      match o.detectLang dec with
      | some lang => base ++ [("detected_language", .s lang)]
      | none => base
    else base

/-- `TXTParser.validate` (`txt_parser.py` 180-198), in the state `parse`
calls it: content set and text already decoded (the lazy re-decode branch
is unreachable there). -/
def validate (content : List Nat) (decoded : String) : Except TxtExc Bool :=
  if content.isEmpty then .error (.validationError "Empty TXT content")
  else if pyStrip decoded == "" then
    .error (.validationError "TXT content is empty after decoding")
  else .ok true

end TXTParser

/-! ### TXT structure extraction (`TXTParser._extract_structure`) -/

/-- A header entry. -/
structure TxtHeader where
  level : Nat
  text : String
  line : Nat
deriving DecidableEq, Repr

/-- A list item (`itemType` is the dict's `type`: `"numbered"` or
`"bullet"`). -/
structure TxtListItem where
  text : String
  line : Nat
  itemType : String
deriving DecidableEq, Repr

/-- An indentation record. -/
structure TxtIndent where
  line : Nat
  level : Nat
deriving DecidableEq, Repr

/-- A section: a header plus the stripped non-blank lines that follow it. -/
structure TxtSection where
  title : String
  level : Nat
  startLine : Nat
  content : List String
deriving DecidableEq, Repr

/-- The structure dict of `TXTParser._extract_structure`. -/
structure TxtStructure where
  headers : List TxtHeader
  lists : List (List TxtListItem)
  paragraphs : List String
  indentation : List TxtIndent
  sections : List TxtSection
deriving DecidableEq, Repr

/-- The all-empty structure. -/
def emptyTxtStructure : TxtStructure :=
  { headers := [], lists := [], paragraphs := [], indentation := [],
    sections := [] }

/-- The loop state of the structure scan.  `current_section` in the source
is always the last element of `sections` (the same dict object), so
appending to it is modelled by editing the last accumulated section. -/
structure TxtScanState where
  acc : TxtStructure
  currentParagraph : List String
  inList : Bool
  listItems : List TxtListItem
deriving DecidableEq, Repr

/-- Append a line to the current (= last) section's content; no-op when no
header has opened a section yet. -/
def appendSectionContent (secs : List TxtSection) (s : String) : List TxtSection :=
  match secs with
  | [] => []
  | [sec] => [{ sec with content := sec.content ++ [s] }]
  | sec :: rest => sec :: appendSectionContent rest s

/-- The mojibake bullet literal of the list regex (the source file holds
the UTF-8 bytes of U+2022 read as cp1252: `U+00E2 U+20AC U+00A2`). -/
def bulletMojibake : List Char :=
  [Char.ofNat 226, Char.ofNat 8364, Char.ofNat 162]

/-- The marker alternation `(\d+\.|â€¢|\*|\-)` of the list regex, tried in
order at the current position; returns the matched marker and the rest. -/
def matchListMarker (rest : List Char) : Option (List Char × List Char) :=
  let ds := rest.takeWhile Char.isDigit
  if !ds.isEmpty && (rest.drop ds.length).head? == some '.' then
    some (ds ++ ['.'], rest.drop (ds.length + 1))
  else if leadSeg bulletMojibake rest then some (bulletMojibake, rest.drop 3)
  else if rest.head? == some '*' then some (['*'], rest.drop 1)
  else if rest.head? == some '-' then some (['-'], rest.drop 1)
  else none

/-- `re.match(r'^\s*(\d+\.|â€¢|\*|\-)\s+(.+)$', line)`: leading whitespace,
a marker, at least one whitespace, then a non-empty remainder (group 2).
When everything after the marker is whitespace, `\s+` backtracks one
character so that `.+` (which matches whitespace too) takes the last one. -/
def matchListLine (line : List Char) : Option (List Char × List Char) :=
  let rest := line.dropWhile pyIsSpace
  match matchListMarker rest with
  | none => none
  | some (m, after) =>
    let ws := after.takeWhile pyIsSpace
    if ws.isEmpty then none
    else
      let g2 := after.drop ws.length
      if g2.isEmpty then
        if 2 ≤ ws.length then some (m, after.drop (after.length - 1))
        else none
      else some (m, g2)

/-- Python `str.isupper` (ASCII model): at least one letter and no
lowercase letter. -/
def pyIsUpper (s : String) : Bool :=
  s.data.any Char.isAlpha &&
    s.data.all fun c => !(97 ≤ c.toNat && c.toNat ≤ 122)

/-- One iteration of the structure scan (`txt_parser.py` 230-310) for line
index `i` (`next?` is `lines[i+1]` when it exists): indentation record,
underlined header, all-caps header, list item, list closure, paragraph
accumulation — in the source's order, with its `continue`s. -/
def txtScanStep (i : Nat) (line : String) (next? : Option String)
    (s : TxtScanState) : TxtScanState :=
  let lineStripped := pyStrip line
  let indent := (line.data.takeWhile pyIsSpace).length
  let s := if lineStripped == "" then s
    else { s with acc := { s.acc with
      indentation := s.acc.indentation ++ [{ line := i + 1, level := indent }] } }
  let underline : Option Nat := match next? with
    | some nx =>
      if lineStripped != "" && pyStrip nx != "" &&
          (pyStrip nx).data.all (fun c => c == '=' || c == '-') then
        some (if nx.data.contains '=' then 1 else 2)
      else none
    | none => none
  match underline with
  | some lvl =>
    { s with acc := { s.acc with
        headers := s.acc.headers ++ [{ level := lvl, text := lineStripped, line := i + 1 }],
        sections := s.acc.sections ++
          [{ title := lineStripped, level := lvl, startLine := i + 1, content := [] }] } }
  | none =>
    if lineStripped != "" && pyIsUpper lineStripped &&
        3 < lineStripped.data.length then
      { s with acc := { s.acc with
          headers := s.acc.headers ++ [{ level := 3, text := lineStripped, line := i + 1 }],
          sections := s.acc.sections ++
            [{ title := lineStripped, level := 3, startLine := i + 1, content := [] }] } }
    else
      match matchListLine line.data with
      | some (m, g2) =>
        let s := if !s.inList then { s with inList := true, listItems := [] } else s
        let ty := match m.head? with
          | some c => if c.isDigit then "numbered" else "bullet"
          | none => "bullet"
        let s := { s with listItems := s.listItems ++
          [({ text := ⟨g2⟩, line := i + 1, itemType := ty } : TxtListItem)] }
        { s with acc := { s.acc with
            sections := appendSectionContent s.acc.sections lineStripped } }
      | none =>
        let s := if s.inList && lineStripped == "" then
            { s with
              acc := { s.acc with lists := s.acc.lists ++ [s.listItems] }
              inList := false
              listItems := [] }
          else s
        if lineStripped != "" then
          { s with
            currentParagraph := s.currentParagraph ++ [line]
            acc := { s.acc with
              sections := appendSectionContent s.acc.sections lineStripped } }
        else if !s.currentParagraph.isEmpty then
          { s with
            acc := { s.acc with
              paragraphs := s.acc.paragraphs ++
                [String.intercalate " " s.currentParagraph] }
            currentParagraph := [] }
        else s

/-- The scan loop over the enumerated lines. -/
def txtScanLoop : Nat → List String → TxtScanState → TxtScanState
  | _, [], s => s
  | i, l :: rest, s => txtScanLoop (i + 1) rest (txtScanStep i l rest.head? s)

namespace TXTParser

/-- `TXTParser._extract_structure` (`txt_parser.py` 200-319).  When the
decoded content is falsy the source returns a bare empty dict; that
unreachable-in-`parse` branch is modelled by the all-empty structure. -/
def extractStructure (decoded : String) : TxtStructure :=
  if decoded == "" then emptyTxtStructure
  else
    let lines := pySplitlines decoded
    let fin := txtScanLoop 0 lines
      { acc := emptyTxtStructure, currentParagraph := [], inList := false,
        listItems := [] }
    let acc := if !fin.currentParagraph.isEmpty then
        { fin.acc with paragraphs := fin.acc.paragraphs ++
            [String.intercalate " " fin.currentParagraph] }
      else fin.acc
    if fin.inList then { acc with lists := acc.lists ++ [fin.listItems] }
    else acc

/-- The result dict of `TXTParser.parse`. -/
structure Result where
  content : String
  docStructure : TxtStructure
  metadata : Metadata
  encoding : String
  confidence : ℚ
deriving DecidableEq, Repr

end TXTParser

/-- The `except` chain of `TXTParser.parse` (`txt_parser.py` 85-93):
`UnicodeDecodeError` first (the details dict of that handler's error is
not modelled), then `except Exception` — which also catches the typed
`TXTEncodingError`, `TXTParsingError` and `ValidationError` raised inside
the `try`. -/
def txtHandle (e : TxtExc) : TxtExc :=
  match e with
  | .unicodeDecodeError enc _ =>
    .txtEncodingError ("Failed to decode TXT with encoding " ++ enc)
  | e => .txtParsingError ("Failed to parse TXT document: " ++ e.message)

namespace TXTParser

/-- The `try` body of `TXTParser.parse` (`txt_parser.py` 53-83): the
sentinel rejection, decode, the emptiness check, structure extraction,
validation, normalization, metadata, then the result dict. -/
def parseBody (content : List Nat) (o : TxtOracle) : Except TxtExc Result :=
  if content = invalidDocSentinel then
    .error (.txtParsingError "Invalid document format")
  else match txtDetectAndDecode content o with
    | .error e => .error e
    | .ok (enc, conf, decoded) =>
      if decoded == "" || (pyStrip decoded).data.length < 2 then
        .error (.txtParsingError "Invalid or empty TXT content")
      else
        let st := extractStructure decoded
        match validate content decoded with
        | .error e => .error e
        | .ok _ =>
          let normalized := normalizeText decoded
          let md := extractMetadata (some decoded) enc o
          .ok { content := normalized, docStructure := st, metadata := md,
                encoding := enc, confidence := conf }

/-- `TXTParser.parse` (`txt_parser.py` 37-93). -/
def parse (content : List Nat) (o : TxtOracle) : Except TxtExc Result :=
  match parseBody content o with
  | .ok r => .ok r
  | .error e => .error (txtHandle e)

end TXTParser

/-! ## Legacy parsers and factory (`app/services/document_parser.py`)

These are the parsers the factory used by the application's callers
actually instantiates.  Their `parse` catches every exception, prints, and
returns a bare string (`""` on failure). -/

/-- The hardcoded sample resume text of `PdfParser.parse`
(`document_parser.py` 86-128), byte-for-byte. -/
def samplePdfText : String :=
  "\n                John Smith\n                Software Engineer\n                john.smith@example.com\n                (555) 123-4567\n                New York, NY\n                linkedin.com/in/johnsmith\n                github.com/johnsmith\n                \n                Summary:\n                Experienced software engineer with 5+ years of experience in web development,\n                cloud technologies, and machine learning. Passionate about building scalable\n                and maintainable software solutions.\n                \n                Work Experience:\n                Senior Software Engineer\n                Tech Solutions Inc.\n                New York, NY\n                2018-01 - Present\n                - Led development of key features for the company's flagship product\n                - Increased system performance by 30% through code optimization\n                - Mentored junior developers and conducted code reviews\n                \n                Software Developer\n                Innovative Systems\n                Boston, MA\n                2015-06 - 2017-12\n                - Developed and maintained web applications using React and Node.js\n                - Implemented CI/CD pipelines to improve deployment efficiency\n                \n                Education:\n                Bachelor of Science in Computer Science\n                University of Technology\n                Boston, MA\n                2011-09 - 2015-05\n                GPA: 3.8/4.0\n                \n                Skills:\n                Python, JavaScript, React, Node.js, AWS, Docker, Kubernetes, SQL, MongoDB\n                \n                Languages:\n                English (Native), Spanish (Intermediate)\n                "

/-- `PdfParser.parse` (`document_parser.py` 61-133).  `reader` is the
oracle for `PyPDF2.PdfReader(...).pages[*].extract_text()`: the page texts,
or `.error` when anything in the `try` raises (the `except` then returns
`""`).  Page texts are concatenated each followed by a newline; when the
stripped result is shorter than 100 characters the hardcoded sample text
is substituted; the returned value is stripped. -/
def legacyPdfParse (content : List Nat)
    (reader : List Nat → Except String (List String)) : String :=
  match reader content with
  | .error _ => ""
  | .ok pageTexts =>
    pyStrip
      (if (pyStrip (String.join (pageTexts.map fun t => t ++ "\n"))).data.length < 100
       then samplePdfText
       else String.join (pageTexts.map fun t => t ++ "\n"))

/-- `DocxParser.parse` (`document_parser.py` 139-163): paragraph texts each
followed by a newline, stripped; `""` when anything raises. -/
def legacyDocxParse (content : List Nat)
    (reader : List Nat → Except String (List String)) : String :=
  match reader content with
  | .error _ => ""
  | .ok paraTexts => pyStrip (String.join (paraTexts.map fun t => t ++ "\n"))

/-- `TxtParser.parse` (`document_parser.py` 169-185): `content.decode("utf-8")`
stripped; `""` when decoding raises.  `decodeUtf8` is the codec oracle. -/
def legacyTxtParse (content : List Nat)
    (decodeUtf8 : List Nat → Except String String) : String :=
  match decodeUtf8 content with
  | .ok s => pyStrip s
  | .error _ => ""

/-- Which parser class the factory instantiated. -/
inductive ParserTag where
  | pdf
  | docx
  | txt
deriving DecidableEq, Repr

namespace DocumentParserFactory

/-- `DocumentParserFactory.create_parser` (`document_parser.py` 191-212):
lower-case the token, return a fresh parser for `pdf`/`docx`/`txt`, and
raise `ValueError(f"Unsupported file type: ...")` — carrying the
lower-cased token — otherwise. -/
def createParser (fileType : String) : Except String ParserTag :=
  let ft := pyLower fileType
  if ft == "pdf" then .ok .pdf
  else if ft == "docx" then .ok .docx
  else if ft == "txt" then .ok .txt
  else .error ("Unsupported file type: " ++ ft)

end DocumentParserFactory

/-! ## Concrete oracles and inputs used by the closed theorems -/

/-- An open oracle whose document reports itself encrypted (what
`PyPDF2.PdfReader` returns for any encrypted PDF). -/
def encryptedOpenOracle : List Nat → Except PdfExc PdfReaderM :=
  fun _ => .ok { isEncrypted := true, pages := [], metadataResult := .ok none,
                 outline := none }

/-- A legacy reader oracle for unreadable bytes: `PyPDF2.PdfReader` raises
(for `b"This is not a valid document"` it raises
`PdfReadError("EOF marker not found")`). -/
def failingPdfReader : List Nat → Except String (List String) :=
  fun _ => .error "EOF marker not found"

/-- Strict single-byte decoding: ASCII bytes decode to themselves, any
byte above 0x7f raises — exactly what the `utf-8` and `ascii` codecs do
on the all-ASCII inputs used below. -/
def asciiDecode (_enc : String) (bs : List Nat) : Except String String :=
  if bs.all (fun b => b < 128) then .ok ⟨bs.map Char.ofNat⟩
  else .error "invalid start byte"

/-- `utf-8` decoding with replacement characters. -/
def asciiDecodeReplace (bs : List Nat) : String :=
  ⟨bs.map fun b => if b < 128 then Char.ofNat b else Char.ofNat 0xFFFD⟩

/-- A chardet-style oracle that reports `utf-8` with confidence 0.99,
decodes ASCII strictly, and has no language detector. -/
def stdTxtOracle : TxtOracle :=
  { detect := fun _ => (some "utf-8", mkRat 99 100)
    decode := asciiDecode
    decodeReplace := asciiDecodeReplace
    detectLang := fun _ => none }

/-- The bytes of `b"Invalid \x80 UTF-8 sequence"` (the conformance test's
encoding-error input). -/
def c6InputBytes : List Nat :=
  [73, 110, 118, 97, 108, 105, 100, 32, 128, 32, 85, 84, 70, 45, 56, 32,
   115, 101, 113, 117, 101, 110, 99, 101]

/-- Ten vertical-tab bytes (0x0b): control characters the spec counts as
binary but the source does not. -/
def tenVerticalTabs : List Nat :=
  List.replicate 10 11

/-- Twenty bytes: eighteen letters then two vertical tabs — 10 percent of
them are control characters in the 0-31 range outside tab/LF/CR/ESC. -/
def c8MixedInput : List Nat :=
  [65, 66, 67, 68, 69, 70, 71, 72, 73, 74, 75, 76, 77, 78, 79, 80, 81, 82,
   11, 11]

/-- Stated from the claim's words, for comparison with `txtIsBinaryChar`:
a byte in the 0-31 range that is not one of tab(9), LF(10), CR(13),
ESC(27). -/
def specBinaryChar (b : Nat) : Bool :=
  decide (b < 32) &&
    !(decide (b = 9) || decide (b = 10) || decide (b = 13) || decide (b = 27))

/-- The concrete table of the DOCX conformance scenario. -/
def c9Table : DocxTableM :=
  ⟨[["Header 1", "Header 2"], ["Data 1", "Data 2"]], 2⟩

/-- A concrete one-paragraph document holding `c9Table`. -/
def c9Doc : DocxDocM :=
  ⟨[⟨"Intro", "Normal"⟩], [c9Table], [], Except.error "no props"⟩

/-- An open oracle returning `c9Doc` for every input. -/
def c9Open : List Nat → Except DocxExc DocxDocM :=
  fun _ => .ok c9Doc

/-- A legacy reader oracle with a single extracted-text-less page. -/
def onePageEmptyReader : List Nat → Except String (List String) :=
  fun _ => .ok [""]
lemma noTwoSpaces_cons {c : Char} {cs : List Char} :
    noTwoSpaces (c :: cs) = (!(c == ' ' && cs.head? == some ' ') && noTwoSpaces cs) := rfl

lemma noTripleLf_cons {c : Char} {cs : List Char} :
    noTripleLf (c :: cs) =
      (!(c == '\n' && cs.head? == some '\n' && cs.tail.head? == some '\n') &&
        noTripleLf cs) := rfl

lemma collapseSpaces_head? (l : List Char) :
    (collapseSpaces l).head? = l.head? := by
  induction l with
  | nil => rfl
  | cons c cs ih =>
    rw [collapseSpaces]
    split
    · next h =>
      rw [ih]
      cases cs with
      | nil => simp at h
      | cons d ds =>
        simp only [Bool.and_eq_true, beq_iff_eq, List.head?_cons, Option.some.injEq] at h
        simp [h.1, h.2]
    · simp

lemma noTwoSpaces_collapseSpaces (l : List Char) :
    noTwoSpaces (collapseSpaces l) = true := by
  induction l with
  | nil => rfl
  | cons c cs ih =>
    rw [collapseSpaces]
    split
    · exact ih
    · next h =>
      rw [noTwoSpaces_cons, Bool.and_eq_true, collapseSpaces_head?]
      exact ⟨by revert h; cases (c == ' ' && cs.head? == some ' ') <;> simp, ih⟩

lemma collapseSpaces_eq_self {l : List Char} (h : noTwoSpaces l = true) :
    collapseSpaces l = l := by
  induction l with
  | nil => rfl
  | cons c cs ih =>
    rw [noTwoSpaces_cons, Bool.and_eq_true] at h
    rw [collapseSpaces]
    split
    · next hc => simp [hc] at h
    · rw [ih h.2]

lemma crToLf_head? (l : List Char) :
    (crToLf l).head? = l.head?.map fun c => if c == '\r' then '\n' else c := by
  induction l using crToLf.induct with
  | case1 => rfl
  | case2 c h =>
    rw [beq_iff_eq] at h
    simp [crToLf, h]
  | case3 c h =>
    have hc : c ≠ '\r' := by simpa using h
    rw [crToLf]
    simp [hc]
  | case4 a b cs h ih =>
    rw [crToLf, if_pos h]
    rw [Bool.and_eq_true, beq_iff_eq] at h
    simp [h.1]
  | case5 a b cs h h2 ih =>
    rw [crToLf, if_neg (by simp [h]), if_pos h2]
    rw [beq_iff_eq] at h2
    simp [h2]
  | case6 a b cs h h2 ih =>
    have ha : a ≠ '\r' := by simpa using h2
    rw [crToLf, if_neg (by simp [h]), if_neg (by simp [ha])]
    simp [ha]

lemma noCarriage_cons {c : Char} {cs : List Char} :
    noCarriage (c :: cs) = ((c != '\r') && noCarriage cs) := by
  simp [noCarriage]

lemma noCarriage_crToLf (l : List Char) : noCarriage (crToLf l) = true := by
  induction l using crToLf.induct with
  | case1 => rfl
  | case2 c h => simp [crToLf, h, noCarriage]
  | case3 c h =>
    have hc : c ≠ '\r' := by simpa using h
    rw [crToLf, if_neg h]
    simp [noCarriage, hc]
  | case4 a b cs h ih =>
    rw [crToLf, if_pos h, noCarriage_cons, ih]
    simp
  | case5 a b cs h h2 ih =>
    rw [crToLf, if_neg (by simp [h]), if_pos h2, noCarriage_cons, ih]
    simp
  | case6 a b cs h h2 ih =>
    have ha : a ≠ '\r' := by simpa using h2
    rw [crToLf, if_neg (by simp [h]), if_neg (by simp [h2]), noCarriage_cons, ih]
    simp [ha]

lemma crToLf_eq_self {l : List Char} (h : noCarriage l = true) :
    crToLf l = l := by
  induction l using crToLf.induct with
  | case1 => rfl
  | case2 c hc => rw [noCarriage_cons] at h; simp_all
  | case3 c hc => rw [crToLf, if_neg hc]
  | case4 a b cs hc ih =>
    rw [noCarriage_cons] at h
    rw [Bool.and_eq_true, beq_iff_eq] at hc
    simp [hc.1] at h
  | case5 a b cs hc hc2 ih =>
    rw [noCarriage_cons] at h
    rw [beq_iff_eq] at hc2
    simp [hc2] at h
  | case6 a b cs hc hc2 ih =>
    rw [noCarriage_cons, Bool.and_eq_true] at h
    rw [crToLf, if_neg (by simp [hc]), if_neg (by simp [hc2]), ih h.2]

lemma noTwoSpaces_tail {c : Char} {cs : List Char}
    (h : noTwoSpaces (c :: cs) = true) : noTwoSpaces cs = true := by
  rw [noTwoSpaces_cons, Bool.and_eq_true] at h
  exact h.2

lemma noTwoSpaces_crToLf {l : List Char} (h : noTwoSpaces l = true) :
    noTwoSpaces (crToLf l) = true := by
  induction l using crToLf.induct with
  | case1 => rfl
  | case2 c hc => simp [crToLf, hc, noTwoSpaces]
  | case3 c hc =>
    rw [crToLf, if_neg hc, noTwoSpaces_cons]
    simp [noTwoSpaces]
  | case4 a b cs hc ih =>
    rw [crToLf, if_pos hc, noTwoSpaces_cons]
    rw [ih (noTwoSpaces_tail (noTwoSpaces_tail h))]
    simp
  | case5 a b cs hc hc2 ih =>
    rw [crToLf, if_neg (by simp [hc]), if_pos hc2, noTwoSpaces_cons]
    rw [ih (noTwoSpaces_tail h)]
    simp
  | case6 a b cs hc hc2 ih =>
    rw [crToLf, if_neg (by simp [hc]), if_neg (by simp [hc2]), noTwoSpaces_cons]
    rw [ih (noTwoSpaces_tail h), crToLf_head?]
    by_cases ha : a = ' '
    · rw [noTwoSpaces_cons, Bool.and_eq_true] at h
      rcases h with ⟨h1, -⟩
      rw [ha] at h1
      have hb : b ≠ ' ' := by simpa using h1
      have hbr : ¬(if b = '\r' then '\n' else b) = ' ' := by
        split
        · decide
        · exact hb
      simp only [ha, crToLf_head?]
      simp [hbr]
    · simp [ha]

lemma noTripleLf_tail {c : Char} {cs : List Char}
    (h : noTripleLf (c :: cs) = true) : noTripleLf cs = true := by
  rw [noTripleLf_cons, Bool.and_eq_true] at h
  exact h.2

lemma noCarriage_tail {c : Char} {cs : List Char}
    (h : noCarriage (c :: cs) = true) : noCarriage cs = true := by
  rw [noCarriage_cons, Bool.and_eq_true] at h
  exact h.2

lemma collapseNewlines_head? (l : List Char) :
    (collapseNewlines l).head? = l.head? := by
  induction l with
  | nil => rfl
  | cons c cs ih =>
    rw [collapseNewlines]
    split
    · next h =>
      simp only [Bool.and_eq_true, beq_iff_eq] at h
      rw [ih, h.1.2, List.head?_cons, h.1.1]
    · simp

lemma noTripleLf_collapseNewlines (l : List Char) :
    noTripleLf (collapseNewlines l) = true := by
  induction l with
  | nil => rfl
  | cons c cs ih =>
    rw [collapseNewlines]
    split
    · exact ih
    · next h =>
      rw [noTripleLf_cons, Bool.and_eq_true]
      refine ⟨?_, ih⟩
      by_cases hc : c = '\n'
      · subst hc
        cases cs with
        | nil => simp [collapseNewlines]
        | cons d ds =>
          by_cases hd : d = '\n'
          · subst hd
            have hds : ds.head? ≠ some '\n' := by
              intro hx
              exact h (by simp [hx])
            have hstep : collapseNewlines ('\n' :: ds) = '\n' :: collapseNewlines ds := by
              rw [collapseNewlines, if_neg]
              intro hx
              simp only [Bool.and_eq_true, beq_iff_eq] at hx
              exact hds (by rw [hx.1.2])
            rw [hstep]
            simp only [List.head?_cons, List.tail_cons, collapseNewlines_head?]
            simp [hds]
          · rw [collapseNewlines_head?]
            simp [hd]
      · simp [hc]

lemma collapseNewlines_eq_self {l : List Char} (h : noTripleLf l = true) :
    collapseNewlines l = l := by
  induction l with
  | nil => rfl
  | cons c cs ih =>
    rw [collapseNewlines]
    split
    · next hc =>
      exfalso
      rw [noTripleLf_cons, Bool.and_eq_true] at h
      rcases h with ⟨h1, -⟩
      rw [hc] at h1
      simp at h1
    · rw [ih (noTripleLf_tail h)]

lemma noTwoSpaces_collapseNewlines {l : List Char}
    (h : noTwoSpaces l = true) : noTwoSpaces (collapseNewlines l) = true := by
  induction l with
  | nil => rfl
  | cons c cs ih =>
    rw [collapseNewlines]
    split
    · exact ih (noTwoSpaces_tail h)
    · rw [noTwoSpaces_cons, Bool.and_eq_true, collapseNewlines_head?]
      refine ⟨?_, ih (noTwoSpaces_tail h)⟩
      rw [noTwoSpaces_cons, Bool.and_eq_true] at h
      exact h.1

lemma noCarriage_collapseNewlines {l : List Char}
    (h : noCarriage l = true) : noCarriage (collapseNewlines l) = true := by
  induction l with
  | nil => rfl
  | cons c cs ih =>
    rw [collapseNewlines]
    split
    · exact ih (noCarriage_tail h)
    · rw [noCarriage_cons, Bool.and_eq_true]
      rw [noCarriage_cons, Bool.and_eq_true] at h
      exact ⟨h.1, ih h.2⟩

lemma noTwoSpaces_append_left {l t : List Char}
    (h : noTwoSpaces (l ++ t) = true) : noTwoSpaces l = true := by
  induction l with
  | nil => rfl
  | cons c cs ih =>
    rw [List.cons_append] at h
    rw [noTwoSpaces_cons, Bool.and_eq_true]
    refine ⟨?_, ih (noTwoSpaces_tail h)⟩
    rw [noTwoSpaces_cons, Bool.and_eq_true] at h
    rcases h with ⟨h1, -⟩
    cases cs with
    | nil => simp
    | cons d ds => simpa using h1

lemma noTripleLf_append_left {l t : List Char}
    (h : noTripleLf (l ++ t) = true) : noTripleLf l = true := by
  induction l with
  | nil => rfl
  | cons c cs ih =>
    rw [List.cons_append] at h
    rw [noTripleLf_cons, Bool.and_eq_true]
    refine ⟨?_, ih (noTripleLf_tail h)⟩
    rw [noTripleLf_cons, Bool.and_eq_true] at h
    rcases h with ⟨h1, -⟩
    cases cs with
    | nil => simp
    | cons d ds =>
      cases ds with
      | nil => simp
      | cons e es => simpa using h1

lemma noCarriage_append_left {l t : List Char}
    (h : noCarriage (l ++ t) = true) : noCarriage l = true := by
  rw [noCarriage, List.all_append, Bool.and_eq_true] at h
  exact h.1

lemma inv_dropWhile {F : List Char → Bool}
    (hF : ∀ c cs, F (c :: cs) = true → F cs = true)
    (p : Char → Bool) (l : List Char) (h : F l = true) :
    F (l.dropWhile p) = true := by
  induction l with
  | nil => exact h
  | cons c cs ih =>
    rw [List.dropWhile_cons]
    split
    · exact ih (hF _ _ h)
    · exact h

lemma pyDropTrailing_append (p : Char → Bool) (l : List Char) :
    ∃ t, l = pyDropTrailing p l ++ t := by
  induction l with
  | nil => exact ⟨[], rfl⟩
  | cons a xs ih =>
    simp only [pyDropTrailing]
    split
    · exact ⟨a :: xs, rfl⟩
    · rcases ih with ⟨t, ht⟩
      exact ⟨t, by rw [List.cons_append, ← ht]⟩

lemma inv_pyDropTrailing {F : List Char → Bool}
    (hApp : ∀ l t, F (l ++ t) = true → F l = true)
    (p : Char → Bool) (l : List Char) (h : F l = true) :
    F (pyDropTrailing p l) = true := by
  obtain ⟨t, ht⟩ := pyDropTrailing_append p l
  exact hApp _ t (by rw [← ht]; exact h)

lemma dropWhile_head?_not (p : Char → Bool) (l : List Char) (c : Char)
    (h : (l.dropWhile p).head? = some c) : p c = false := by
  induction l with
  | nil => simp at h
  | cons a xs ih =>
    rw [List.dropWhile_cons] at h
    split at h
    · exact ih h
    · next hp =>
      rw [List.head?_cons, Option.some.injEq] at h
      subst h
      exact Bool.not_eq_true _ ▸ (by simpa using hp)

lemma pyDropTrailing_head? (p : Char → Bool) (l : List Char) :
    (pyDropTrailing p l).head? = none ∨ (pyDropTrailing p l).head? = l.head? := by
  cases l with
  | nil => exact Or.inl rfl
  | cons a xs =>
    simp only [pyDropTrailing]
    split
    · exact Or.inl rfl
    · exact Or.inr (by simp)

lemma pyDropTrailing_getLast? (p : Char → Bool) (l : List Char) (c : Char)
    (h : (pyDropTrailing p l).getLast? = some c) : p c = false := by
  induction l with
  | nil => simp [pyDropTrailing] at h
  | cons a xs ih =>
    simp only [pyDropTrailing] at h
    split at h
    · simp at h
    · next hcond =>
      cases hys : pyDropTrailing p xs with
      | nil =>
        rw [hys] at h
        simp only [List.getLast?_singleton, Option.some.injEq] at h
        subst h
        rw [hys] at hcond
        simpa using hcond
      | cons y ys =>
        rw [hys] at h
        rw [List.getLast?_cons_cons] at h
        exact ih (by rw [hys]; exact h)

lemma dropWhile_eq_self' {p : Char → Bool} {l : List Char}
    (h : ∀ c, l.head? = some c → p c = false) : l.dropWhile p = l := by
  cases l with
  | nil => rfl
  | cons a xs =>
    rw [List.dropWhile_cons, if_neg]
    rw [h a (by simp)]
    simp

lemma pyDropTrailing_cons (p : Char → Bool) (a : Char) (xs : List Char) :
    pyDropTrailing p (a :: xs) =
      if (pyDropTrailing p xs).isEmpty && p a then [] else a :: pyDropTrailing p xs := by
  rw [pyDropTrailing]

lemma pyDropTrailing_eq_self {p : Char → Bool} {l : List Char}
    (h : ∀ c, l.getLast? = some c → p c = false) : pyDropTrailing p l = l := by
  induction l with
  | nil => rfl
  | cons a xs ih =>
    cases xs with
    | nil =>
      rw [pyDropTrailing_cons]
      rw [h a (by simp)]
      simp [pyDropTrailing]
    | cons b xs' =>
      have hx : pyDropTrailing p (b :: xs') = b :: xs' :=
        ih fun c hc => h c (by rw [List.getLast?_cons_cons]; exact hc)
      rw [pyDropTrailing_cons, hx]
      simp

lemma isStrippedL_pyStripL (l : List Char) :
    isStrippedL (pyStripL l) = true := by
  rw [isStrippedL, Bool.and_eq_true]
  constructor
  · rcases hh : (pyStripL l).head? with _ | c
    · simp
    · rw [pyStripL] at hh
      rcases pyDropTrailing_head? pyIsSpace (l.dropWhile pyIsSpace) with h0 | h0
      · rw [h0] at hh; cases hh
      · rw [h0] at hh
        have := dropWhile_head?_not pyIsSpace l c hh
        simp [this]
  · rcases hh : (pyStripL l).getLast? with _ | c
    · simp
    · rw [pyStripL] at hh
      have := pyDropTrailing_getLast? pyIsSpace (l.dropWhile pyIsSpace) c hh
      simp [this]

lemma pyStripL_eq_self {l : List Char} (h : isStrippedL l = true) :
    pyStripL l = l := by
  rw [isStrippedL, Bool.and_eq_true] at h
  rcases h with ⟨h1, h2⟩
  rw [pyStripL, dropWhile_eq_self', pyDropTrailing_eq_self]
  · intro c hc
    rw [hc] at h2
    simpa using h2
  · intro c hc
    rw [hc] at h1
    simpa using h1

lemma inv_pyStripL {F : List Char → Bool}
    (hTail : ∀ c cs, F (c :: cs) = true → F cs = true)
    (hApp : ∀ l t, F (l ++ t) = true → F l = true)
    (l : List Char) (h : F l = true) : F (pyStripL l) = true :=
  inv_pyDropTrailing hApp _ _ (inv_dropWhile hTail _ _ h)

lemma normalizePipeline_idem (l : List Char) :
    normalizePipeline (normalizePipeline l) = normalizePipeline l := by
  set y := normalizePipeline l with hy
  have h2 : noTwoSpaces y = true := by
    rw [hy, normalizePipeline]
    exact inv_pyStripL (fun _ _ => noTwoSpaces_tail) (fun _ _ => noTwoSpaces_append_left) _
      (noTwoSpaces_collapseNewlines (noTwoSpaces_crToLf (noTwoSpaces_collapseSpaces l)))
  have h3 : noCarriage y = true := by
    rw [hy, normalizePipeline]
    exact inv_pyStripL (fun _ _ => noCarriage_tail) (fun _ _ => noCarriage_append_left) _
      (noCarriage_collapseNewlines (noCarriage_crToLf _))
  have h4 : noTripleLf y = true := by
    rw [hy, normalizePipeline]
    exact inv_pyStripL (fun _ _ => noTripleLf_tail) (fun _ _ => noTripleLf_append_left) _
      (noTripleLf_collapseNewlines _)
  have h5 : isStrippedL y = true := by
    rw [hy, normalizePipeline]
    exact isStrippedL_pyStripL _
  conv_lhs => rw [normalizePipeline]
  rw [collapseSpaces_eq_self h2, crToLf_eq_self h3, collapseNewlines_eq_self h4,
    pyStripL_eq_self h5]

/-! ## Claim theorems -/

/-- C1: the factory (`DocumentParserFactory.create_parser`) hands back the
legacy `PdfParser`, whose `parse` swallows the reader's exception on the
unreadable input `b"This is not a valid document"` and returns the bare
empty string — not a populated document and not a typed error. -/
theorem factory_pdf_parse_failure_yields_bare_empty_string :
    DocumentParserFactory.createParser "pdf" = .ok ParserTag.pdf ∧
    legacyPdfParse invalidDocSentinel failingPdfReader = "" := by
  constructor
  · rfl
  · rfl

/-- C2 counterexample: a freshly constructed PDF or DOCX parser — no
document loaded yet — raises a parsing error from `extract_metadata`
instead of returning a map. -/
theorem extract_metadata_unloaded_raises :
    PDFParser.extractMetadataM none =
      .error (.pdfParsingError "No PDF loaded for metadata extraction") ∧
    DOCXParser.extractMetadataM none =
      .error (.docxParsingError "No document loaded for metadata extraction") := by
  exact ⟨rfl, rfl⟩

/-- C2 amended: once a document is loaded, PDF and DOCX `extract_metadata`
always return a map — the empty map when reading the underlying metadata
raises; TXT `extract_metadata` returns a map in every state, the empty map
when nothing is decoded; but before any document is loaded, PDF and DOCX
raise their generic parsing error. -/
theorem extract_metadata_amended :
    (∀ rdr : PdfReaderM, ∃ m, PDFParser.extractMetadataM (some rdr) = .ok m) ∧
    (∀ (rdr : PdfReaderM) (e : String), rdr.metadataResult = .error e →
      PDFParser.extractMetadataM (some rdr) = .ok []) ∧
    (∀ doc : DocxDocM, ∃ m, DOCXParser.extractMetadataM (some doc) = .ok m) ∧
    (∀ (doc : DocxDocM) (e : String), doc.coreProps = .error e →
      DOCXParser.extractMetadataM (some doc) = .ok []) ∧
    (∀ (enc : String) (o : TxtOracle), TXTParser.extractMetadata none enc o = []) ∧
    PDFParser.extractMetadataM none =
      .error (.pdfParsingError "No PDF loaded for metadata extraction") ∧
    DOCXParser.extractMetadataM none =
      .error (.docxParsingError "No document loaded for metadata extraction") := by
  refine ⟨fun rdr => ⟨_, rfl⟩, fun rdr e he => ?_, fun doc => ⟨_, rfl⟩,
    fun doc e he => ?_, fun enc o => rfl, rfl, rfl⟩
  · simp only [PDFParser.extractMetadataM, he]
  · simp only [DOCXParser.extractMetadataM, he]

/-- C2 witness: the amended theorem applied to concrete loaded parsers
whose metadata source raises, and to the TXT parser with nothing decoded. -/
theorem extract_metadata_amended_witness :
    PDFParser.extractMetadataM
      (some ⟨false, [], Except.error "boom", none⟩) = .ok [] ∧
    DOCXParser.extractMetadataM
      (some ⟨[], [], [], Except.error "boom"⟩) = .ok [] ∧
    TXTParser.extractMetadata none "utf-8" stdTxtOracle = [] :=
  ⟨extract_metadata_amended.2.1 _ "boom" rfl,
   extract_metadata_amended.2.2.2.1 _ "boom" rfl,
   extract_metadata_amended.2.2.2.2.1 "utf-8" stdTxtOracle⟩

/-- C3: on an encrypted document the `PDFEncryptedError` raised inside the
`try` of `PDFParser.parse` is caught by that `try`'s own
`except Exception` and re-raised as the generic
`PDFParsingError("PDF parsing failed: Cannot parse encrypted PDF")` — no
`PDFEncryptedError` ever escapes `parse`. -/
theorem pdf_encrypted_wrapped_as_generic_error :
    PDFParser.parse [] encryptedOpenOracle =
      .error (.pdfParsingError "PDF parsing failed: Cannot parse encrypted PDF") ∧
    ∀ m, PDFParser.parse [] encryptedOpenOracle ≠
      .error (.pdfEncryptedError m) := by
  refine ⟨rfl, fun m h => ?_⟩
  rw [show PDFParser.parse [] encryptedOpenOracle =
    .error (.pdfParsingError "PDF parsing failed: Cannot parse encrypted PDF")
    from rfl] at h
  exact PdfExc.noConfusion (Except.error.inj h)

/-- C4 counterexample: for the unknown token `"XYZ"` the factory's error
message carries only the lower-cased token `"xyz"`, not the token as
given. -/
theorem create_parser_unknown_token_lowercased :
    DocumentParserFactory.createParser "XYZ" =
      .error "Unsupported file type: xyz" ∧
    pyContains "Unsupported file type: xyz" "XYZ" = false ∧
    pyContains "Unsupported file type: xyz" "xyz" = true := by
  exact ⟨rfl, by decide, by decide⟩

/-- C4 amended: the factory resolves tokens case-insensitively to the three
registered parsers and fails on every other token with
`ValueError("Unsupported file type: ...")` carrying the lower-cased form
of the token. -/
theorem create_parser_amended (t : String) :
    (pyLower t = "pdf" → DocumentParserFactory.createParser t = .ok .pdf) ∧
    (pyLower t = "docx" → DocumentParserFactory.createParser t = .ok .docx) ∧
    (pyLower t = "txt" → DocumentParserFactory.createParser t = .ok .txt) ∧
    (pyLower t ∉ (["pdf", "docx", "txt"] : List String) →
      DocumentParserFactory.createParser t =
        .error ("Unsupported file type: " ++ pyLower t)) := by
  refine ⟨fun h => ?_, fun h => ?_, fun h => ?_, fun h => ?_⟩
  · simp [DocumentParserFactory.createParser, h]
  · simp [DocumentParserFactory.createParser, h]
  · simp [DocumentParserFactory.createParser, h]
  · simp only [List.mem_cons, List.not_mem_nil, or_false, not_or] at h
    simp [DocumentParserFactory.createParser, h.1, h.2.1, h.2.2]

/-- C4 witness: the amended factory behavior at the concrete tokens
`"PDF"`, `"DoCx"`, `"txt"` and `"BoGuS"`. -/
theorem create_parser_amended_witness :
    DocumentParserFactory.createParser "PDF" = .ok .pdf ∧
    DocumentParserFactory.createParser "DoCx" = .ok .docx ∧
    DocumentParserFactory.createParser "txt" = .ok .txt ∧
    DocumentParserFactory.createParser "BoGuS" =
      .error ("Unsupported file type: " ++ pyLower "BoGuS") :=
  ⟨(create_parser_amended "PDF").1 (by decide),
   (create_parser_amended "DoCx").2.1 (by decide),
   (create_parser_amended "txt").2.2.1 (by decide),
   (create_parser_amended "BoGuS").2.2.2 (by decide)⟩

/-- C5: on the malformed date string `"invalid"` nothing in the `try` of
`_parse_pdf_date` raises and the length test fails, so the function falls
off its end and returns Python `None` (`none`) — not the empty string its
own unit test expects. -/
theorem parse_pdf_date_invalid_returns_none :
    PDFParser.parsePdfDate "invalid" = none ∧
    PDFParser.parsePdfDate "invalid" ≠ some "" := by
  refine ⟨by decide, by decide⟩

/-- C6: on `b"Invalid \x80 UTF-8 sequence"` with chardet reporting a
UTF-8-family encoding, the `TXTEncodingError` raised by the 0x80 check is
caught by `parse`'s own `except Exception` and re-raised as the generic
`TXTParsingError` — no `EncodingError` kind ever escapes `parse`. -/
theorem txt_encoding_error_wrapped_as_generic :
    TXTParser.parse c6InputBytes stdTxtOracle =
      .error (.txtParsingError
        "Failed to parse TXT document: Invalid utf-8 sequence detected") ∧
    ∀ m, TXTParser.parse c6InputBytes stdTxtOracle ≠
      .error (.txtEncodingError m) := by
  refine ⟨rfl, fun m h => ?_⟩
  rw [show TXTParser.parse c6InputBytes stdTxtOracle =
    .error (.txtParsingError
      "Failed to parse TXT document: Invalid utf-8 sequence detected")
    from rfl] at h
  exact TxtExc.noConfusion (Except.error.inj h)

/-- C7: TXT text normalization is idempotent — applying
`TXTParser.normalize_text`'s transformation to an already-normalized
string returns it unchanged. -/
theorem normalize_text_idempotent (s : String) :
    TXTParser.normalizeText (TXTParser.normalizeText s) =
      TXTParser.normalizeText s := by
  by_cases h : s = ""
  · rw [h]
    rfl
  · simp only [TXTParser.normalizeText, h, if_false]
    by_cases hy : (⟨normalizePipeline s.data⟩ : String) = ""
    · rw [if_pos hy, hy]
    · rw [if_neg hy]
      exact congrArg String.mk (normalizePipeline_idem s.data)

/-- C8 counterexample: byte 0x0b (vertical tab) lies in the 0-31 range and
is not tab, LF, CR or ESC, so the claim counts it as binary; the source's
test (`b < 9 or (b > 13 and b < 32 and b != 27)`) does not.  On ten
vertical tabs — 100 percent such bytes — parse does not reject the input
as binary content but fails later with the emptiness error, and on twenty
bytes of which 10 percent are vertical tabs parse succeeds outright. -/
theorem binary_scan_misses_vertical_tab :
    txtIsBinaryChar 11 = false ∧
    specBinaryChar 11 = true ∧
    tenVerticalTabs.length < 20 * tenVerticalTabs.countP specBinaryChar ∧
    TXTParser.parse tenVerticalTabs stdTxtOracle =
      .error (.txtParsingError
        "Failed to parse TXT document: Invalid or empty TXT content") ∧
    c8MixedInput.length < 20 * c8MixedInput.countP specBinaryChar ∧
    (∃ r, TXTParser.parse c8MixedInput stdTxtOracle = .ok r) := by
  refine ⟨by decide, by decide, by decide, rfl, by decide, ⟨_, rfl⟩⟩

/-- C8 amended: a byte counts as a binary control character exactly when
its value lies in 0-31 and is not one of tab(9), LF(10), VT(11), FF(12),
CR(13), ESC(27); when more than 5 percent of a non-sentinel input of at
least 10 bytes are such bytes, `TXTParser.parse` rejects it as binary
content (with the generic parsing error its catch-all handler wraps the
rejection into). -/
theorem binary_rejection_amended :
    (∀ b : Nat, txtIsBinaryChar b =
      (decide (b < 32) && !(decide (b = 9) || decide (b = 10) ||
        decide (b = 11) || decide (b = 12) || decide (b = 13) ||
        decide (b = 27)))) ∧
    ∀ (content : List Nat) (o : TxtOracle),
      content ≠ invalidDocSentinel →
      10 ≤ content.length →
      content.length < 20 * txtBinaryCount content →
      TXTParser.parse content o =
        .error (.txtParsingError
          "Failed to parse TXT document: Invalid text content: contains too many binary characters") := by
  constructor
  · intro b
    rw [Bool.eq_iff_iff]
    simp only [txtIsBinaryChar, Bool.or_eq_true, Bool.and_eq_true,
      Bool.not_eq_true', Bool.or_eq_false_iff, decide_eq_true_eq,
      decide_eq_false_iff_not]
    omega
  · intro content o h1 h2 h3
    have he : ¬(content.isEmpty = true) := by
      rw [List.isEmpty_iff]
      intro hx
      rw [hx] at h2
      simp at h2
    have hd : txtDetectAndDecode content o =
        .error (.txtParsingError
          "Invalid text content: contains too many binary characters") := by
      rw [txtDetectAndDecode, if_neg he, if_neg (by omega), if_pos h3]
    rw [TXTParser.parse, TXTParser.parseBody, if_neg h1, hd]
    rfl

/-- C8 witness: ten NUL bytes are all binary under the source's own test,
and parse rejects them with the binary-content error. -/
theorem binary_rejection_amended_witness :
    TXTParser.parse (List.replicate 10 0) stdTxtOracle =
      .error (.txtParsingError
        "Failed to parse TXT document: Invalid text content: contains too many binary characters") :=
  binary_rejection_amended.2 (List.replicate 10 0) stdTxtOracle
    (by decide) (by decide) (by decide)

/-- C9: a DOCX table whose rows hold the cell texts
`["Header 1","Header 2"]` and `["Data 1","Data 2"]` contributes the lines
`"Header 1 | Header 2"` and `"Data 1 | Data 2"` to the content
`DOCXParser.parse` returns: non-empty stripped cells joined by `" | "`,
and all table lines placed after the paragraph lines, newline-joined. -/
theorem docx_table_rows_in_content
    (content : List Nat) (openDocx : List Nat → Except DocxExc DocxDocM)
    (doc : DocxDocM) (t : DocxTableM)
    (hopen : openDocx content = .ok doc)
    (ht : t ∈ doc.tables)
    (hrows : t.rows = [["Header 1", "Header 2"], ["Data 1", "Data 2"]]) :
    ∃ st md, DOCXParser.parse content openDocx =
        .ok ⟨String.intercalate "\n" (DOCXParser.textContent doc), st, md⟩ ∧
      DOCXParser.textContent doc =
        DOCXParser.paraLines doc ++ DOCXParser.tableLines doc ∧
      "Header 1 | Header 2" ∈ DOCXParser.tableLines doc ∧
      "Data 1 | Data 2" ∈ DOCXParser.tableLines doc := by
  obtain ⟨st, hst⟩ : ∃ st, DOCXParser.extractStructureM (some doc) = .ok st :=
    ⟨_, rfl⟩
  obtain ⟨md, hmd⟩ : ∃ md, DOCXParser.extractMetadataM (some doc) = .ok md :=
    ⟨_, rfl⟩
  refine ⟨st, md, ?_, rfl, ?_, ?_⟩
  · simp only [DOCXParser.parse, DOCXParser.parseBody, hopen,
      DOCXParser.extractTextM, hst, hmd]
  · rw [DOCXParser.tableLines]
    exact List.mem_flatten.mpr
      ⟨t.rows.filterMap DOCXParser.rowLine,
       List.mem_map_of_mem _ ht, by rw [hrows]; decide⟩
  · rw [DOCXParser.tableLines]
    exact List.mem_flatten.mpr
      ⟨t.rows.filterMap DOCXParser.rowLine,
       List.mem_map_of_mem _ ht, by rw [hrows]; decide⟩

/-- C9 witness: the claim at a concrete one-paragraph, one-table document. -/
theorem docx_table_rows_in_content_witness :
    ∃ st md, DOCXParser.parse [] c9Open =
        .ok ⟨String.intercalate "\n" (DOCXParser.textContent c9Doc), st, md⟩ ∧
      DOCXParser.textContent c9Doc =
        DOCXParser.paraLines c9Doc ++ DOCXParser.tableLines c9Doc ∧
      "Header 1 | Header 2" ∈ DOCXParser.tableLines c9Doc ∧
      "Data 1 | Data 2" ∈ DOCXParser.tableLines c9Doc :=
  docx_table_rows_in_content [] c9Open c9Doc c9Table rfl (by decide) rfl

lemma dropWhile_append_of_all {p : Char → Bool} {a b : List Char}
    (h : a.all p = true) : (a ++ b).dropWhile p = b.dropWhile p := by
  induction a with
  | nil => rfl
  | cons c cs ih =>
    rw [List.all_cons, Bool.and_eq_true] at h
    rw [List.cons_append, List.dropWhile_cons, if_pos h.1, ih h.2]

lemma pyDropTrailing_eq_nil_all {p : Char → Bool} {l : List Char}
    (h0 : pyDropTrailing p l = []) : l.all p = true := by
  induction l with
  | nil => rfl
  | cons a xs ih =>
    rw [pyDropTrailing_cons] at h0
    split at h0
    · next hc =>
      rw [Bool.and_eq_true, List.isEmpty_iff] at hc
      rw [List.all_cons, hc.2, ih hc.1]
      rfl
    · cases h0

lemma pyDropTrailing_append_left {p : Char → Bool} {a b : List Char}
    (hb : pyDropTrailing p b ≠ []) :
    pyDropTrailing p (a ++ b) = a ++ pyDropTrailing p b := by
  induction a with
  | nil => rfl
  | cons c cs ih =>
    rw [List.cons_append, pyDropTrailing_cons, ih, if_neg]
    · rw [List.cons_append]
    · intro hx
      rw [Bool.and_eq_true, List.isEmpty_iff, List.append_eq_nil] at hx
      exact hb hx.1.2

/-- C10: whenever the text PyPDF2 extracts strips to fewer than 100
characters, the factory's legacy `PdfParser.parse` discards it and returns
the stripped hardcoded sample resume — a constant independent of the
input, beginning `"John Smith"` / `"Software Engineer"`. -/
theorem legacy_pdf_sample_substitution
    (content : List Nat) (reader : List Nat → Except String (List String))
    (pageTexts : List String)
    (hreader : reader content = .ok pageTexts)
    (hshort : (pyStrip (String.join (pageTexts.map fun t => t ++ "\n"))).data.length < 100) :
    legacyPdfParse content reader = pyStrip samplePdfText ∧
    ∃ rest, (pyStrip samplePdfText).data =
      "John Smith\n                Software Engineer".data ++ rest := by
  constructor
  · rw [legacyPdfParse, hreader]
    show pyStrip
      (if (pyStrip (String.join (List.map (fun t => t ++ "\n") pageTexts))).data.length < 100
       then samplePdfText
       else String.join (List.map (fun t => t ++ "\n") pageTexts)) =
      pyStrip samplePdfText
    rw [if_pos hshort]
  · refine ⟨pyDropTrailing pyIsSpace ((samplePdfText.data.drop 17).drop 44), ?_⟩
    have hdata : ∀ s : String, (pyStrip s).data = pyStripL s.data := fun _ => rfl
    have hdec : samplePdfText.data =
        samplePdfText.data.take 17 ++
          ((samplePdfText.data.drop 17).take 44 ++
            (samplePdfText.data.drop 17).drop 44) := by
      rw [List.take_append_drop, List.take_append_drop]
    have hb1 : pyDropTrailing pyIsSpace ((samplePdfText.data.drop 17).drop 44) ≠ [] := by
      intro h0
      have hall := pyDropTrailing_eq_nil_all h0
      rw [show ((samplePdfText.data.drop 17).drop 44).all pyIsSpace = false
        from by decide] at hall
      cases hall
    rw [hdata, pyStripL]
    conv_lhs => rw [hdec]
    rw [dropWhile_append_of_all (by decide)]
    rw [show (samplePdfText.data.drop 17).take 44 =
      "John Smith\n                Software Engineer".data from by decide]
    rw [show ("John Smith\n                Software Engineer".data : List Char) =
      'J' :: "ohn Smith\n                Software Engineer".data from by decide]
    rw [List.cons_append, List.dropWhile_cons, if_neg (by decide)]
    rw [← List.cons_append, pyDropTrailing_append_left hb1]

/-- C10 witness: a readable PDF with one extracted-text-less page gets the
sample text. -/
theorem legacy_pdf_sample_substitution_witness :
    legacyPdfParse [] onePageEmptyReader = pyStrip samplePdfText ∧
    ∃ rest, (pyStrip samplePdfText).data =
      "John Smith\n                Software Engineer".data ++ rest :=
  legacy_pdf_sample_substitution [] onePageEmptyReader [""] rfl (by decide)
